import Mathlib

/-!
Verification of the telescopio-api distributed voting engine.

Shallow embedding of the Go voting service (`internal/domain/vote`,
`internal/handlers`): the Modified Borda Count aggregator, the assignment
generator, configuration validation, and ballot intake.  Conventions:

* UUIDs are opaque identifiers, modelled as natural numbers; the
  "lexicographic order" on UUID strings is modelled by the order on `Nat`.
* Go `float64` fields (MBC scores, quality thresholds) are modelled as
  exact rationals `ℚ`; Go `int` is modelled as `Int` where the sign
  matters and as `Nat` for counts and indices.
* Repository lookups are modelled as explicit functions
  (`UUID → Option Attachment`); a failed lookup is `none`.
* The `math/rand` permutations drawn by the assignment generator are
  explicit parameters (`List (List Nat)`), one permutation per loop of
  the Go code; the Go code seeds its RNG from `time.Now().UnixNano()`,
  so the draws are not a function of any other input.
* Randomly generated record ids (`uuid.New()`) carry no information and
  are modelled as the constant `0`.
-/

set_option maxHeartbeats 1000000
set_option maxRecDepth 4096

namespace Telescopio

abbrev UUID := Nat

/-- Attachment (proposal) as seen by the voting service: `GetID`,
`GetParticipantID` (the author/owner), `GetOriginalName`, `EventID`. -/
structure Attachment where
  id : UUID
  eventID : UUID
  participantID : UUID
  originalName : String
deriving DecidableEq

/-- A ranking vote record (`internal/domain/vote/vote.go`, `Vote`);
only the fields the claims touch.  The random `ID` and the optional
metrics fields are omitted. -/
structure Vote where
  eventID : UUID
  assignmentID : UUID
  voterID : UUID
  attachmentID : UUID
  rankPosition : Nat
deriving DecidableEq

/-- Result record `AttachmentResult` from `vote.go`: per-proposal MBC score and ranks. -/
structure AttachmentResult where
  attachmentID : UUID
  filename : String
  participantID : UUID
  mbcScore : ℚ
  globalRank : Nat
  adjustedRank : Nat
  voteCount : Nat
  averageRank : ℚ
deriving DecidableEq

/-- Grouping `votesByAttachment[id]`: the Go code appends votes in iteration
order into a map keyed by attachment id, which is the same as filtering
the vote list by that id. -/
def votesFor (votes : List Vote) (attID : UUID) : List Vote :=
  votes.filter (fun v => v.attachmentID == attID)

/-- Score `MBC(f_j) = Σ(m − RankPosition) / (m·(m−1))` exactly as computed in
`CalculateModifiedBordaCount` (part_002, lines 130-141): the Borda sum
(`mbcSum`, accumulated vote by vote) over the proposal's received votes,
divided by `float64(m) * float64(m-1)`. -/
def mbcScoreOf (m : Nat) (attachmentVotes : List Vote) : ℚ :=
  ((attachmentVotes.map (fun v => (m : ℚ) - (v.rankPosition : ℚ))).sum) /
    ((m : ℚ) * ((m : ℚ) - 1))

/-- Average rank (part_002, lines 143-151): mean received rank, `0` for
zero votes. -/
def averageRankOf (attachmentVotes : List Vote) : ℚ :=
  if attachmentVotes.length > 0 then
    ((attachmentVotes.map (fun v => (v.rankPosition : ℚ))).sum) / (attachmentVotes.length : ℚ)
  else 0

/-- The unsorted `results` slice built by `CalculateModifiedBordaCount`
(part_002, lines 126-161), one entry per attachment in repository order;
`GlobalRank`/`AdjustedRank` are still zero at this point. -/
def attachmentResults (m : Nat) (votes : List Vote) (attachments : List Attachment) :
    List AttachmentResult :=
  attachments.map (fun att =>
    let attVotes := votesFor votes att.id
    { attachmentID := att.id
      filename := att.originalName
      participantID := att.participantID
      mbcScore := mbcScoreOf m attVotes
      globalRank := 0
      adjustedRank := 0
      voteCount := attVotes.length
      averageRank := averageRankOf attVotes })

/-- One insertion step of an insertion sort driven by a strict `less`
comparator: the element is placed before the first list element it is
strictly less-than, i.e. after any elements that compare equal. -/
def insertGo {α : Type} (less : α → α → Bool) (x : α) : List α → List α
  | [] => [x]
  | y :: ys => if less x y then x :: y :: ys else y :: insertGo less x ys

/-- Go `sort.Slice(results, less)` as executed on the short slices
arising here: for slices below the pdqsort insertion-sort threshold Go
performs a plain insertion sort, which processes elements left to right
and keeps elements that compare equal in their original relative order
(a stable sort); `insertGo` realises exactly that placement. -/
def sortGo {α : Type} (less : α → α → Bool) (l : List α) : List α :=
  l.foldl (fun acc x => insertGo less x acc) []

/-- The comparator of part_002 line 165:
`results[i].MBCScore > results[j].MBCScore`. -/
def mbcLess (a b : AttachmentResult) : Bool :=
  decide (b.mbcScore < a.mbcScore)

/-- part_002 lines 168-170: `results[i].GlobalRank = i + 1` in sorted order. -/
def assignRanks (start : Nat) : List AttachmentResult → List AttachmentResult
  | [] => []
  | r :: rs => { r with globalRank := start + 1 } :: assignRanks (start + 1) rs

/-- The global ranking `G` produced by `CalculateModifiedBordaCount`
(part_002, lines 106-170): per-attachment results, sorted by MBC score
descending, with `GlobalRank` assigned `1..k` in sorted order.  The
subsequent quality / incentive computation (lines 172-191) does not
modify this slice (`applyIncentiveSystem` works on a copy). -/
def calculateGlobalRanking (m : Nat) (votes : List Vote) (attachments : List Attachment) :
    List AttachmentResult :=
  assignRanks 0 (sortGo mbcLess (attachmentResults m votes attachments))

/-- Number of first-place votes received by a proposal (used by the
specification's tie-break wording; the code computes no such quantity). -/
def firstPlaceVotes (votes : List Vote) (attID : UUID) : Nat :=
  (votes.filter (fun v => v.attachmentID == attID && v.rankPosition == 1)).length

/-- The ordering claimed by the specification for the global ranking:
MBC descending, ties by more first-place votes, then by lower proposal
id.  This definition follows the spec's words, for comparison with what
`calculateGlobalRanking` actually produces. -/
def specTieBreakLess (votes : List Vote) (a b : AttachmentResult) : Prop :=
  b.mbcScore < a.mbcScore ∨
    (a.mbcScore = b.mbcScore ∧
      (firstPlaceVotes votes b.attachmentID < firstPlaceVotes votes a.attachmentID ∨
        (firstPlaceVotes votes a.attachmentID = firstPlaceVotes votes b.attachmentID ∧
          a.attachmentID < b.attachmentID)))

instance (votes : List Vote) : DecidableRel (specTieBreakLess votes) := fun a b => by
  unfold specTieBreakLess; infer_instance

/-- Decidability of `List.Pairwise` for a decidable relation. -/
def decPairwise {α : Type} (R : α → α → Prop) [DecidableRel R] :
    (l : List α) → Decidable (l.Pairwise R)
  | [] => isTrue List.Pairwise.nil
  | x :: xs =>
    have : Decidable (xs.Pairwise R) := decPairwise R xs
    decidable_of_iff ((∀ y ∈ xs, R x y) ∧ xs.Pairwise R) (List.pairwise_cons).symm

instance {α : Type} (R : α → α → Prop) [DecidableRel R] (l : List α) :
    Decidable (l.Pairwise R) := decPairwise R l

/-- The claim that the produced global ranking is ordered by the spec's
tie-break chain (spec wording, not the code's). -/
def specOrderedRanking (m : Nat) (votes : List Vote) (attachments : List Attachment) : Prop :=
  (calculateGlobalRanking m votes attachments).Pairwise (specTieBreakLess votes)

instance (m : Nat) (votes : List Vote) (attachments : List Attachment) :
    Decidable (specOrderedRanking m votes attachments) := by
  unfold specOrderedRanking; infer_instance

/-! ## Assignment generator (`GenerateAssignments`, part_002 lines 30-103) -/

/-- An Assignment record as produced by `NewAssignment` and consumed by
the ballot intake.  The random `uuid.New()` id of generated assignments
is modelled as `0`; `eventID` is dropped (it is a constant pass-through). -/
structure AssignmentRec where
  id : UUID
  participantID : UUID
  attachmentIDs : List UUID
  isCompleted : Bool
deriving DecidableEq

/-- Conflict check `hasConflictOfInterest` (part_002 lines 319-326): a failed repository
lookup counts as a conflict ("err on the side of caution"); otherwise the
attachment's author must differ from the participant. -/
def hasConflictOfInterest (lookup : UUID → Option Attachment)
    (participantID attachmentID : UUID) : Bool :=
  match lookup attachmentID with
  | none => true
  | some att => att.participantID == participantID

/-- Go `int(math.Ceil(2 * math.Log2(float64 k)))`: the least `r` with
`2 ^ r ≥ k ^ 2` (i.e. `r ≥ 2·log₂ k`), searched over `0..k·k`, a range
that always contains it. -/
def recommendedM (k : Nat) : Nat :=
  (List.range (k * k + 1)).findIdx (fun r => k * k ≤ 2 ^ r)

/-- Matrix write `assignmentMatrix[i][j] = true`: functional update of the matrix. -/
def matrixSet (i j : Nat) (M : Nat → Nat → Bool) : Nat → Nat → Bool :=
  fun i' j' => if i' = i && j' = j then true else M i' j'

/-- Phase 1 (part_002 lines 55-67): for each attachment index `j`, walk
the first `min minEvals n` entries of that attachment's drawn permutation
of participants and mark each non-conflicting one.  Note the Go loop
counter advances even over conflicting participants. -/
def phase1 (conflict : Nat → Nat → Bool) (n k minEvals : Nat)
    (p1 : List (List Nat)) (M0 : Nat → Nat → Bool) : Nat → Nat → Bool :=
  (List.range k).foldl (fun M j =>
    (List.range (min minEvals n)).foldl (fun M e =>
      let i := (p1.getD j []).getD e 0
      if conflict i j then M else matrixSet i j M) M) M0

/-- Phase 2 inner loop (part_002 lines 78-90): walk the participant's
drawn permutation of attachments, adding unassigned non-conflicting ones,
stopping as soon as `m` assignments are reached. -/
def phase2Fill (conflict : Nat → Nat → Bool) (i m : Nat) :
    List Nat → (Nat → Nat → Bool) → Nat → (Nat → Nat → Bool) × Nat
  | [], M, cur => (M, cur)
  | j :: rest, M, cur =>
    if m ≤ cur then (M, cur)
    else if !M i j && !conflict i j then
      phase2Fill conflict i m rest (matrixSet i j M) (cur + 1)
    else phase2Fill conflict i m rest M cur

/-- Recount of `currentAssignments` (part_002 lines 71-76). -/
def countRow (M : Nat → Nat → Bool) (i k : Nat) : Nat :=
  ((List.range k).filter (fun j => M i j)).length

/-- Phase 2 over all participants (part_002 lines 70-100): top up each
participant, then collect their assigned attachments in index order into
a new Assignment record.  The Go code returns success regardless of
whether `m` was reached. -/
def phase2 (conflict : Nat → Nat → Bool) (participants attachments : List UUID)
    (m k : Nat) (p2 : List (List Nat)) (M1 : Nat → Nat → Bool) :
    (Nat → Nat → Bool) × List AssignmentRec :=
  (List.range participants.length).foldl (fun state i =>
    let M := state.1
    let M' := (phase2Fill conflict i m (p2.getD i []) M (countRow M i k)).1
    let assigned := ((List.range k).filter (fun j => M' i j)).map
      (fun j => attachments.getD j 0)
    (M', state.2 ++ [⟨0, participants.getD i 0, assigned, false⟩])) (M1, [])

inductive GenError where
  | mExceedsK
  | belowRecommendedM
deriving DecidableEq

/-- The conflict check in matrix coordinates:
`vs.hasConflictOfInterest(participants[i], attachments[j])`. -/
def conflictAt (lookup : UUID → Option Attachment)
    (participants attachments : List UUID) (i j : Nat) : Bool :=
  hasConflictOfInterest lookup (participants.getD i 0) (attachments.getD j 0)

/-- Generator `GenerateAssignments` (part_002 lines 30-103).  The two guard checks
are the only error paths; the RNG permutation draws `p1` (one per
attachment) and `p2` (one per participant) are parameters because the Go
code seeds its RNG from the wall clock. -/
def generateAssignments (lookup : UUID → Option Attachment)
    (participants attachments : List UUID) (m minEvals : Nat)
    (p1 p2 : List (List Nat)) : Except GenError (List AssignmentRec) :=
  let n := participants.length
  let k := attachments.length
  if k < m then .error .mExceedsK
  else if m < recommendedM k then .error .belowRecommendedM
  else
    let conflict := conflictAt lookup participants attachments
    let M1 := phase1 conflict n k minEvals p1 (fun _ _ => false)
    .ok (phase2 conflict participants attachments m k p2 M1).2

/-! ## Configuration validation (`ValidateVotingConfiguration`, part_002
lines 329-359) -/

/-- Parameters `VotingConfiguration` (vote.go): the mathematical parameters. -/
structure VotingConfiguration where
  attachmentsPerEvaluator : Int
  qualityGoodThreshold : ℚ
  qualityBadThreshold : ℚ
  adjustmentMagnitude : Int
  minEvaluationsPerFile : Int
deriving DecidableEq

inductive ValidationError where
  | mNotPositive
  | mExceedsK
  | thresholdOrder
  | thresholdRange
  | belowRecommended
  | insufficientEvals
deriving DecidableEq

/-- Validation `ValidateVotingConfiguration` (part_002 lines 329-359), checks in
source order; each `errors.New`/`fmt.Errorf` is one constructor. -/
def validateVotingConfiguration (config : VotingConfiguration)
    (totalAttachments totalParticipants : Nat) : Except ValidationError Unit :=
  let m := config.attachmentsPerEvaluator
  let k := totalAttachments
  let n := totalParticipants
  if m ≤ 0 then .error .mNotPositive
  else if (k : Int) < m then .error .mExceedsK
  else if config.qualityGoodThreshold ≤ config.qualityBadThreshold then .error .thresholdOrder
  else if 1 < config.qualityGoodThreshold ∨ config.qualityBadThreshold < 0 then
    .error .thresholdRange
  else if m < (recommendedM k : Int) then .error .belowRecommended
  else if (n : Int) * m < (k : Int) * config.minEvaluationsPerFile then
    .error .insufficientEvals
  else .ok ()

/-! ## Ballot intake (`SubmitRankingVotes`, part_015 lines 572-749)

The HTTP/JSON and uuid-string parsing layers are elided: identifiers
arrive already parsed, the event's existence is represented by its
`stage`, the voter's registration by the list of events they belong to,
and their assignment (the result of `GetAssignmentByParticipant`) is an
explicit record.  Votes are stored by appending, in request order, to
the existing vote store, as the sequence of `voteRepo.Create` calls does. -/

inductive Stage where
  | creation
  | registration
  | submission
  | voting
  | result
deriving DecidableEq

inductive SubmitError where
  | eventNotInVotingStage
  | notRegistered
  | assignmentMismatch
  | duplicateRank
  | nonConsecutiveRanks
  | notAssigned
  | attachmentNotFound
  | wrongEvent
deriving DecidableEq

/-- One entry of the request's `rankings` array.  The binding tags
(`required,min=1`) guarantee `rank ≥ 1` for any request that reaches the
handler body, which `Nat` with the handler's own checks subsumes. -/
structure RankingEntry where
  attachmentID : UUID
  rank : Nat
deriving DecidableEq

/-- What a successful submission produces: the grown vote store, the
(possibly completed) assignment written back, and the reported count. -/
structure SubmitResult where
  newStore : List Vote
  newAssignment : AssignmentRec
  votesCount : Nat
deriving DecidableEq

/-- The duplicate-rank scan (part_015 lines 657-664): walk the rankings,
failing on the first rank already seen. -/
def hasDuplicateRank (seen : List Nat) : List Nat → Bool
  | [] => false
  | r :: rest => if seen.contains r then true else hasDuplicateRank (r :: seen) rest

/-- The per-ranking vote construction loop (part_015 lines 677-720):
first failure wins; each accepted entry becomes a `Vote` record. -/
def buildVotes (eventID assignmentID voterID : UUID) (assignedIDs : List UUID)
    (lookup : UUID → Option Attachment) : List RankingEntry → Except SubmitError (List Vote)
  | [] => .ok []
  | e :: rest =>
    if !assignedIDs.contains e.attachmentID then .error .notAssigned
    else
      match lookup e.attachmentID with
      | none => .error .attachmentNotFound
      | some att =>
        if att.eventID ≠ eventID then .error .wrongEvent
        else
          match buildVotes eventID assignmentID voterID assignedIDs lookup rest with
          | .error err => .error err
          | .ok vs => .ok (⟨eventID, assignmentID, voterID, e.attachmentID, e.rank⟩ :: vs)

/-- Handler `SubmitRankingVotes` (part_015 lines 572-749), checks in source
order: voting stage, voter registration, assignment-id match, duplicate
ranks, rank completeness `1..len(rankings)`, then the per-ranking
assignment/existence/event checks; on success the votes are appended to
the store and the assignment is marked completed only when every
assigned attachment was ranked.  There is no already-voted check. -/
def submitRankingVotes (stage : Stage) (participantEventIDs : List UUID)
    (eventID participantID reqAssignmentID : UUID) (assignment : AssignmentRec)
    (lookup : UUID → Option Attachment) (rankings : List RankingEntry)
    (store : List Vote) : Except SubmitError SubmitResult :=
  if stage ≠ Stage.voting then .error .eventNotInVotingStage
  else if !participantEventIDs.contains eventID then .error .notRegistered
  else if reqAssignmentID ≠ assignment.id then .error .assignmentMismatch
  else if hasDuplicateRank [] (rankings.map RankingEntry.rank) then .error .duplicateRank
  else if !(List.range' 1 rankings.length).all
      (fun i => (rankings.map RankingEntry.rank).contains i) then
    .error .nonConsecutiveRanks
  else
    match buildVotes eventID reqAssignmentID participantID assignment.attachmentIDs
        lookup rankings with
    | .error e => .error e
    | .ok votes =>
      let newAssignment :=
        if votes.length = assignment.attachmentIDs.length then
          { assignment with isCompleted := true }
        else assignment
      .ok { newStore := store ++ votes
            newAssignment := newAssignment
            votesCount := votes.length }

/-! ## Configuration creation (`CreateVotingConfiguration`, part_015
lines 59-302) -/

/-- The decoded request body.  A field absent from the JSON payload
decodes to the zero value, so the handler cannot distinguish the two. -/
structure CreateConfigRequest where
  attachmentsPerEvaluator : Int
  qualityGoodThreshold : ℚ
  qualityBadThreshold : ℚ
  adjustmentMagnitude : Int
  minEvaluationsPerFile : Int
deriving DecidableEq

/-- The gin `binding` tags of the request struct (part_015 lines 92-98)
under go-playground/validator semantics: `required` fails on the zero
value, and `min`/`max` apply to the decoded value unconditionally (no
`omitempty`), so `min=1` rejects an absent or zero integer field. -/
def bindCreateConfigRequest (r : CreateConfigRequest) : Bool :=
  decide (r.attachmentsPerEvaluator ≠ 0 ∧
    1 ≤ r.attachmentsPerEvaluator ∧ r.attachmentsPerEvaluator ≤ 50 ∧
    0 ≤ r.qualityGoodThreshold ∧ r.qualityGoodThreshold ≤ 1 ∧
    0 ≤ r.qualityBadThreshold ∧ r.qualityBadThreshold ≤ 1 ∧
    1 ≤ r.adjustmentMagnitude ∧ r.adjustmentMagnitude ≤ 10 ∧
    1 ≤ r.minEvaluationsPerFile ∧ r.minEvaluationsPerFile ≤ 20)

inductive CreateConfigError where
  | invalidPayload
  | invalidThresholds
  | invalidEventStage
  | configAlreadyExists
  | insufficientParticipants
  | noAttachments
  | validationFailed (e : ValidationError)
  | mathConstraintViolation
deriving DecidableEq

/-- The smart-defaults block (part_015 lines 221-233): each zero field
is replaced in turn. -/
def applyConfigDefaults (config0 : VotingConfiguration) : VotingConfiguration :=
  let config1 :=
    if config0.qualityGoodThreshold = 0 then
      { config0 with qualityGoodThreshold := 6 / 10 } else config0
  let config2 :=
    if config1.qualityBadThreshold = 0 then
      { config1 with qualityBadThreshold := 3 / 10 } else config1
  let config3 :=
    if config2.adjustmentMagnitude = 0 then
      { config2 with adjustmentMagnitude := 3 } else config2
  if config3.minEvaluationsPerFile = 0 then
    { config3 with minEvaluationsPerFile := 3 } else config3

/-- Handler `CreateVotingConfiguration` (part_015 lines 59-302), checks in
source order.  Repository fetches are elided into parameters: the
event's `stage`, whether a configuration already exists, and the
participant and attachment counts.  On success the persisted
configuration (with zero fields replaced by the smart defaults) is
returned. -/
def createVotingConfiguration (stage : Stage) (configAlreadyExists : Bool)
    (participantCount attachmentCount : Nat) (req : CreateConfigRequest) :
    Except CreateConfigError VotingConfiguration :=
  if !bindCreateConfigRequest req then .error .invalidPayload
  else if req.qualityGoodThreshold ≠ 0 ∧ req.qualityBadThreshold ≠ 0 ∧
      req.qualityGoodThreshold ≤ req.qualityBadThreshold then
    .error .invalidThresholds
  else if stage ≠ Stage.registration then .error .invalidEventStage
  else if configAlreadyExists then .error .configAlreadyExists
  else if participantCount < 2 then .error .insufficientParticipants
  else if attachmentCount = 0 then .error .noAttachments
  else
    let config4 := applyConfigDefaults
      ⟨req.attachmentsPerEvaluator, req.qualityGoodThreshold, req.qualityBadThreshold,
        req.adjustmentMagnitude, req.minEvaluationsPerFile⟩
    match validateVotingConfiguration config4 attachmentCount participantCount with
    | .error e => .error (.validationFailed e)
    | .ok _ =>
      if (participantCount : Int) * req.attachmentsPerEvaluator <
          (attachmentCount : Int) * req.minEvaluationsPerFile then
        .error .mathConstraintViolation
      else .ok config4

/-! ## Concrete fixtures used by counterexamples and witnesses -/

/-- Three rank-1 votes for a single proposal (more voters than `m = 2`). -/
def votesOverm : List Vote :=
  [⟨10, 50, 7, 1, 1⟩, ⟨10, 50, 8, 1, 1⟩, ⟨10, 50, 9, 1, 1⟩]

def attSingle : Attachment := ⟨1, 10, 99, "a"⟩

/-- Tie fixture for the global ranking: proposals `2` and `1` (in that
repository order) both score `1/3` under `m = 3`, but proposal `1` has
one first-place vote and proposal `2` has none. -/
def votesTie : List Vote :=
  [⟨10, 50, 7, 1, 1⟩, ⟨10, 51, 8, 1, 3⟩, ⟨10, 50, 7, 2, 2⟩, ⟨10, 51, 8, 2, 2⟩]

def attsTie : List Attachment := [⟨2, 10, 98, "b"⟩, ⟨1, 10, 99, "a"⟩]

/-- Repository for the under-fill scenario: participant `7` owns
attachment `100`, so only attachment `101` is available to them. -/
def lookupShortfall : UUID → Option Attachment := fun attID =>
  if attID = 100 then some ⟨100, 10, 7, "x"⟩
  else if attID = 101 then some ⟨101, 10, 99, "y"⟩
  else none

/-- Repository for the no-self-evaluation witness: two participants, each
owning one of the two attachments. -/
def lookupPair : UUID → Option Attachment := fun attID =>
  if attID = 100 then some ⟨100, 10, 5, "x"⟩
  else if attID = 101 then some ⟨101, 10, 6, "y"⟩
  else none

/-- Repository for the reproducibility scenario: eight attachments, all
owned by the non-participating user `99`. -/
def lookupEight : UUID → Option Attachment := fun attID =>
  if 100 ≤ attID && attID ≤ 107 then some ⟨attID, 10, 99, "z"⟩ else none

def permsAsc : List (List Nat) := [[0, 1, 2, 3, 4, 5, 6, 7]]

def permsDesc : List (List Nat) := [[7, 6, 5, 4, 3, 2, 1, 0]]

/-- Repository for the ballot-intake scenarios: the two attachments of
the voter's assignment, both in event `10`. -/
def lookupBallot : UUID → Option Attachment := fun attID =>
  if attID = 100 then some ⟨100, 10, 98, "x"⟩
  else if attID = 101 then some ⟨101, 10, 97, "y"⟩
  else none

/-- The voter's assignment: id `55`, participant `7`, two attachments. -/
def asgBallot : AssignmentRec := ⟨55, 7, [100, 101], false⟩

/-- A ballot ranking only a strict subset of the assignment. -/
def rankingsSubset : List RankingEntry := [⟨100, 1⟩]

/-- A complete ballot over the assignment. -/
def rankingsFull : List RankingEntry := [⟨100, 1⟩, ⟨101, 2⟩]

/-- A configuration passing every hard check but below the convergence
recommendation for `k = 16` (which is `8`). -/
def cfgBelowRec : VotingConfiguration := ⟨5, 6 / 10, 3 / 10, 3, 1⟩

/-- A create-config request with `adjustment_magnitude = 0`. -/
def reqZeroMagnitude : CreateConfigRequest := ⟨8, 6 / 10, 3 / 10, 0, 1⟩

/-- The same request with a positive magnitude. -/
def reqValid : CreateConfigRequest := ⟨8, 6 / 10, 3 / 10, 3, 1⟩

/-- A valid request leaving the good-quality threshold at zero. -/
def reqZeroGood : CreateConfigRequest := ⟨8, 0, 3 / 10, 3, 1⟩

/-- Two votes (ranks 1 and 2) for the single proposal `1`, under `m = 3`. -/
def votesPairW : List Vote := [⟨10, 50, 7, 1, 1⟩, ⟨10, 51, 8, 1, 2⟩]

/-- The result record `calculateGlobalRanking 3 votesPairW [attSingle]`
produces: score `(2 + 1)/6 = 1/2`, two votes, average rank `3/2`. -/
def resultPairW : AttachmentResult := ⟨1, "a", 99, 1 / 2, 1, 0, 2, 3 / 2⟩

end Telescopio

deriving instance DecidableEq for Except

namespace Telescopio

attribute [local semireducible] Rat.mul Rat.inv Rat.add Rat.sub

/-! ## Helper lemmas about the sorting and rank-assignment steps -/

theorem insertGo_perm {α : Type} (less : α → α → Bool) (x : α) (l : List α) :
    (insertGo less x l).Perm (x :: l) := by
  induction l with
  | nil => exact List.Perm.refl _
  | cons y ys ih =>
    simp only [insertGo]
    split
    · exact List.Perm.refl _
    · exact (ih.cons y).trans (List.Perm.swap x y ys)

theorem foldl_insertGo_perm {α : Type} (less : α → α → Bool) :
    ∀ (l acc : List α),
      (l.foldl (fun acc x => insertGo less x acc) acc).Perm (acc ++ l)
  | [], acc => by simp
  | x :: xs, acc => by
    simp only [List.foldl_cons]
    exact (foldl_insertGo_perm less xs (insertGo less x acc)).trans
      (((insertGo_perm less x acc).append_right xs).trans List.perm_middle.symm)

theorem sortGo_perm {α : Type} (less : α → α → Bool) (l : List α) :
    (sortGo less l).Perm l := by
  simpa [sortGo] using foldl_insertGo_perm less l []

theorem mem_insertGo {α : Type} (less : α → α → Bool) (x a : α) (l : List α) :
    a ∈ insertGo less x l ↔ a = x ∨ a ∈ l := by
  rw [(insertGo_perm less x l).mem_iff, List.mem_cons]

theorem insertGo_sorted (x : AttachmentResult) (l : List AttachmentResult)
    (hl : l.Pairwise (fun a b => b.mbcScore ≤ a.mbcScore)) :
    (insertGo mbcLess x l).Pairwise (fun a b => b.mbcScore ≤ a.mbcScore) := by
  induction l with
  | nil => simp [insertGo]
  | cons y ys ih =>
    rcases List.pairwise_cons.mp hl with ⟨hy, hys⟩
    simp only [insertGo]
    split
    case isTrue h =>
      have hxy : y.mbcScore < x.mbcScore := by simpa [mbcLess] using h
      refine List.pairwise_cons.mpr ⟨?_, hl⟩
      intro z hz
      rcases List.mem_cons.mp hz with rfl | hz'
      · exact le_of_lt hxy
      · exact le_trans (hy z hz') (le_of_lt hxy)
    case isFalse h =>
      have hxy : x.mbcScore ≤ y.mbcScore := by simpa [mbcLess, not_lt] using h
      refine List.pairwise_cons.mpr ⟨?_, ih hys⟩
      intro z hz
      rcases (mem_insertGo mbcLess x z ys).mp hz with rfl | hz'
      · exact hxy
      · exact hy z hz'

theorem sortGo_sorted (l : List AttachmentResult) :
    (sortGo mbcLess l).Pairwise (fun a b => b.mbcScore ≤ a.mbcScore) := by
  suffices h : ∀ (l acc : List AttachmentResult),
      acc.Pairwise (fun a b => b.mbcScore ≤ a.mbcScore) →
      (l.foldl (fun acc x => insertGo mbcLess x acc) acc).Pairwise
        (fun a b => b.mbcScore ≤ a.mbcScore) by
    exact h l [] (by simp)
  intro l
  induction l with
  | nil => intro acc hacc; simpa using hacc
  | cons x xs ih =>
    intro acc hacc
    simp only [List.foldl_cons]
    exact ih (insertGo mbcLess x acc) (insertGo_sorted x acc hacc)

theorem assignRanks_length (s : Nat) (l : List AttachmentResult) :
    (assignRanks s l).length = l.length := by
  induction l generalizing s with
  | nil => rfl
  | cons r rs ih => simp [assignRanks, ih]

theorem assignRanks_map_attID (s : Nat) (l : List AttachmentResult) :
    (assignRanks s l).map (fun r => r.attachmentID) =
      l.map (fun r => r.attachmentID) := by
  induction l generalizing s with
  | nil => rfl
  | cons r rs ih => simp [assignRanks, ih]

theorem mem_assignRanks (r : AttachmentResult) :
    ∀ (s : Nat) (l : List AttachmentResult), r ∈ assignRanks s l →
      ∃ r' ∈ l, r.attachmentID = r'.attachmentID ∧ r.mbcScore = r'.mbcScore := by
  intro s l
  induction l generalizing s with
  | nil => intro h; simp [assignRanks] at h
  | cons r' rs ih =>
    intro h
    rcases List.mem_cons.mp h with rfl | h'
    · exact ⟨r', by simp, rfl, rfl⟩
    · obtain ⟨r'', hmem, h1, h2⟩ := ih (s + 1) h'
      exact ⟨r'', by simp [hmem], h1, h2⟩

theorem assignRanks_pairwise (s : Nat) (l : List AttachmentResult)
    (hl : l.Pairwise (fun a b => b.mbcScore ≤ a.mbcScore)) :
    (assignRanks s l).Pairwise (fun a b => b.mbcScore ≤ a.mbcScore) := by
  induction l generalizing s with
  | nil => simp [assignRanks]
  | cons r rs ih =>
    rcases List.pairwise_cons.mp hl with ⟨hr, hrs⟩
    refine List.pairwise_cons.mpr ⟨?_, ih (s + 1) hrs⟩
    intro z hz
    obtain ⟨r'', hmem, _, h2⟩ := mem_assignRanks z (s + 1) rs hz
    calc z.mbcScore = r''.mbcScore := h2
    _ ≤ r.mbcScore := hr r'' hmem

theorem assignRanks_get :
    ∀ (l : List AttachmentResult) (s : Nat) (i : Fin (assignRanks s l).length),
      ((assignRanks s l).get i).globalRank = s + i.1 + 1
  | r :: rs, s, ⟨0, _⟩ => rfl
  | r :: rs, s, ⟨j + 1, h⟩ => by
    have hlen : j < (assignRanks (s + 1) rs).length := by
      simpa [assignRanks] using Nat.lt_of_succ_lt_succ h
    have := assignRanks_get rs (s + 1) ⟨j, hlen⟩
    simp only [assignRanks, List.get] at this ⊢
    omega

/-- Membership in the final global ranking determines the MBC score:
every entry's score is the formula applied to the votes received by the
entry's attachment. -/
theorem mbcScore_of_mem (m : Nat) (votes : List Vote) (attachments : List Attachment)
    (r : AttachmentResult) (hr : r ∈ calculateGlobalRanking m votes attachments) :
    r.mbcScore = mbcScoreOf m (votesFor votes r.attachmentID) := by
  obtain ⟨r', hr', hatt, hmbc⟩ :=
    mem_assignRanks r 0 (sortGo mbcLess (attachmentResults m votes attachments)) hr
  have hr'' : r' ∈ attachmentResults m votes attachments :=
    (sortGo_perm mbcLess (attachmentResults m votes attachments)).mem_iff.mp hr'
  obtain ⟨att, hatt_mem, rfl⟩ := List.mem_map.mp hr''
  rw [hmbc, hatt]

/-! ## C1 and C2: the MBC formula and its range -/

/-- C1: for every proposal in the final global ranking, the MBC
aggregator computes `MBC(f_j) = (1/(m·(m−1))) · Σ (m − rankPosition)`
over the proposal's received votes, and a proposal with zero received
votes scores `0`. -/
theorem mbc_formula (m : Nat) (votes : List Vote) (attachments : List Attachment)
    (r : AttachmentResult) (hr : r ∈ calculateGlobalRanking m votes attachments)
    (hm : 2 ≤ m) :
    r.mbcScore = (1 / ((m : ℚ) * ((m : ℚ) - 1))) *
      ((votesFor votes r.attachmentID).map
        (fun v => (m : ℚ) - (v.rankPosition : ℚ))).sum ∧
    (votesFor votes r.attachmentID = [] → r.mbcScore = 0) := by
  have h := mbcScore_of_mem m votes attachments r hr
  constructor
  · rw [h, mbcScoreOf, div_eq_mul_inv, one_div, mul_comm]
  · intro hempty
    rw [h, mbcScoreOf, hempty]
    simp

/-- Witness for `mbc_formula` at `m = 3` and two votes of ranks 1, 2. -/
theorem mbc_formula_witness :
    resultPairW ∈ calculateGlobalRanking 3 votesPairW [attSingle] ∧ 2 ≤ 3 ∧
    (resultPairW.mbcScore = (1 / ((3 : ℚ) * ((3 : ℚ) - 1))) *
      ((votesFor votesPairW resultPairW.attachmentID).map
        (fun v => (3 : ℚ) - (v.rankPosition : ℚ))).sum ∧
    (votesFor votesPairW resultPairW.attachmentID = [] → resultPairW.mbcScore = 0)) :=
  ⟨by decide, by decide,
    mbc_formula 3 votesPairW [attSingle] resultPairW (by decide) (by decide)⟩

theorem list_sum_nonneg_q (l : List ℚ) (h : ∀ x ∈ l, 0 ≤ x) : 0 ≤ l.sum := by
  induction l with
  | nil => simp
  | cons a t ih =>
    simp only [List.sum_cons]
    have h1 := h a (by simp)
    have h2 := ih (fun x hx => h x (by simp [hx]))
    linarith

theorem list_sum_le_length_mul (l : List ℚ) (c : ℚ) (h : ∀ x ∈ l, x ≤ c) :
    l.sum ≤ (l.length : ℚ) * c := by
  induction l with
  | nil => simp
  | cons a t ih =>
    simp only [List.sum_cons, List.length_cons]
    have h1 := h a (by simp)
    have h2 := ih (fun x hx => h x (by simp [hx]))
    push_cast
    linarith

/-- C2 counterexample: with `m = 2` and three received rank-1 votes the
aggregator's MBC score is `3/2`, outside `[0,1]`. -/
theorem mbc_unit_interval_cex :
    ¬ (∀ r ∈ calculateGlobalRanking 2 votesOverm [attSingle],
        0 ≤ r.mbcScore ∧ r.mbcScore ≤ 1) := by decide

/-- C2 amended: the MBC score lies in `[0,1]` provided the proposal
received at most `m` votes, each with rank position in `1..m`. -/
theorem mbc_unit_interval_bounded (m : Nat) (votes : List Vote)
    (attachments : List Attachment) (r : AttachmentResult)
    (hr : r ∈ calculateGlobalRanking m votes attachments) (hm : 2 ≤ m)
    (hv : (votesFor votes r.attachmentID).length ≤ m)
    (hranks : ∀ v ∈ votesFor votes r.attachmentID,
      1 ≤ v.rankPosition ∧ v.rankPosition ≤ m) :
    0 ≤ r.mbcScore ∧ r.mbcScore ≤ 1 := by
  rw [mbcScore_of_mem m votes attachments r hr, mbcScoreOf]
  have hm' : (2 : ℚ) ≤ (m : ℚ) := by exact_mod_cast hm
  have hd : 0 < (m : ℚ) * ((m : ℚ) - 1) := by
    apply mul_pos <;> linarith
  have hterm : ∀ x ∈ (votesFor votes r.attachmentID).map
      (fun v => (m : ℚ) - (v.rankPosition : ℚ)), 0 ≤ x ∧ x ≤ (m : ℚ) - 1 := by
    intro x hx
    obtain ⟨v, hv', rfl⟩ := List.mem_map.mp hx
    obtain ⟨h1, h2⟩ := hranks v hv'
    have h1' : (1 : ℚ) ≤ (v.rankPosition : ℚ) := by exact_mod_cast h1
    have h2' : (v.rankPosition : ℚ) ≤ (m : ℚ) := by exact_mod_cast h2
    constructor <;> linarith
  have hsum0 : 0 ≤ ((votesFor votes r.attachmentID).map
      (fun v => (m : ℚ) - (v.rankPosition : ℚ))).sum :=
    list_sum_nonneg_q _ (fun x hx => (hterm x hx).1)
  have hsum1 : ((votesFor votes r.attachmentID).map
      (fun v => (m : ℚ) - (v.rankPosition : ℚ))).sum ≤ (m : ℚ) * ((m : ℚ) - 1) := by
    have hlen : ((votesFor votes r.attachmentID).length : ℚ) ≤ (m : ℚ) := by
      exact_mod_cast hv
    calc ((votesFor votes r.attachmentID).map
        (fun v => (m : ℚ) - (v.rankPosition : ℚ))).sum
        ≤ (((votesFor votes r.attachmentID).map
            (fun v => (m : ℚ) - (v.rankPosition : ℚ))).length : ℚ) * ((m : ℚ) - 1) :=
          list_sum_le_length_mul _ _ (fun x hx => (hterm x hx).2)
    _ = ((votesFor votes r.attachmentID).length : ℚ) * ((m : ℚ) - 1) := by
          rw [List.length_map]
    _ ≤ (m : ℚ) * ((m : ℚ) - 1) := by
          apply mul_le_mul_of_nonneg_right hlen; linarith
  exact ⟨div_nonneg hsum0 (le_of_lt hd), (div_le_one hd).mpr hsum1⟩

/-- Witness for `mbc_unit_interval_bounded`: `m = 3`, one proposal with
two votes of ranks 1 and 2. -/
theorem mbc_unit_interval_bounded_witness :
    resultPairW ∈ calculateGlobalRanking 3 votesPairW [attSingle] ∧
    (votesFor votesPairW resultPairW.attachmentID).length ≤ 3 ∧
    (0 ≤ resultPairW.mbcScore ∧ resultPairW.mbcScore ≤ 1) :=
  ⟨by decide, by decide,
    mbc_unit_interval_bounded 3 votesPairW [attSingle] resultPairW
      (by decide) (by decide) (by decide) (by decide)⟩

/-! ## C3: the global ranking order -/

/-- C3 counterexample: two proposals tie at MBC `1/3` under `m = 3`;
proposal `1` has strictly more first-place votes (and the lower id) than
proposal `2`, yet the produced ranking keeps the repository order
`[2, 1]`, so it is not ordered by the spec's tie-break chain. -/
theorem global_ranking_tiebreak_cex : ¬ specOrderedRanking 3 votesTie attsTie := by
  decide

/-- C3 amended: the global ranking is the per-attachment results sorted
by MBC score descending only (the produced attachment ids are a
permutation of the input attachments' ids, scores are non-increasing
along the list, and `globalRank` is `1..k` in list order); equal-MBC
entries keep their repository relative order, and no first-place-vote or
id comparison takes place. -/
theorem global_ranking_sorted_perm (m : Nat) (votes : List Vote)
    (attachments : List Attachment) :
    ((calculateGlobalRanking m votes attachments).map (fun r => r.attachmentID)).Perm
      (attachments.map (fun a => a.id)) ∧
    (calculateGlobalRanking m votes attachments).Pairwise
      (fun a b => b.mbcScore ≤ a.mbcScore) ∧
    ∀ i : Fin (calculateGlobalRanking m votes attachments).length,
      ((calculateGlobalRanking m votes attachments).get i).globalRank = i.1 + 1 := by
  refine ⟨?_, ?_, ?_⟩
  · rw [calculateGlobalRanking, assignRanks_map_attID]
    have hperm := (sortGo_perm mbcLess (attachmentResults m votes attachments)).map
      (fun r => r.attachmentID)
    refine hperm.trans ?_
    rw [attachmentResults, List.map_map]
    exact List.Perm.refl _
  · exact assignRanks_pairwise 0 _ (sortGo_sorted _)
  · intro i
    have := assignRanks_get (sortGo mbcLess (attachmentResults m votes attachments)) 0 i
    simpa using this

/-! ## Helper lemmas about the assignment generator -/

theorem foldl_preserve {α β : Type} (P : β → Prop) (f : β → α → β)
    (hf : ∀ b a, P b → P (f b a)) : ∀ (l : List α) (b : β), P b → P (l.foldl f b) := by
  intro l
  induction l with
  | nil => intro b hb; simpa using hb
  | cons x xs ih =>
    intro b hb
    simp only [List.foldl_cons]
    exact ih _ (hf b x hb)

theorem matrixSet_noconf (c : Nat → Nat → Bool) (i j : Nat) (M : Nat → Nat → Bool)
    (hc : c i j = false) (hM : ∀ a b, M a b = true → c a b = false) :
    ∀ a b, matrixSet i j M a b = true → c a b = false := by
  intro a b h
  unfold matrixSet at h
  split at h
  case isTrue heq =>
    simp only [Bool.and_eq_true, decide_eq_true_eq] at heq
    obtain ⟨rfl, rfl⟩ := heq
    exact hc
  case isFalse _ => exact hM a b h

theorem phase1_noconf (c : Nat → Nat → Bool) (n k minEvals : Nat)
    (p1 : List (List Nat)) (M0 : Nat → Nat → Bool)
    (h0 : ∀ a b, M0 a b = true → c a b = false) :
    ∀ a b, phase1 c n k minEvals p1 M0 a b = true → c a b = false := by
  unfold phase1
  refine foldl_preserve (fun M => ∀ a b, M a b = true → c a b = false) _ ?_ _ M0 h0
  intro M j hM
  refine foldl_preserve (fun M => ∀ a b, M a b = true → c a b = false) _ ?_ _ M hM
  intro M' e hM'
  dsimp only
  split
  case isTrue _ => exact hM'
  case isFalse h =>
    exact matrixSet_noconf c _ j M' (by simpa using h) hM'

theorem phase2Fill_noconf (c : Nat → Nat → Bool) (i m : Nat) :
    ∀ (js : List Nat) (M : Nat → Nat → Bool) (cur : Nat),
      (∀ a b, M a b = true → c a b = false) →
      ∀ a b, (phase2Fill c i m js M cur).1 a b = true → c a b = false := by
  intro js
  induction js with
  | nil => intro M cur hM; simpa [phase2Fill] using hM
  | cons j rest ih =>
    intro M cur hM
    simp only [phase2Fill]
    split
    case isTrue _ => exact hM
    case isFalse _ =>
      split
      case isTrue h =>
        simp only [Bool.and_eq_true, Bool.not_eq_true'] at h
        exact ih _ _ (matrixSet_noconf c i j M h.2 hM)
      case isFalse _ => exact ih _ _ hM

theorem phase2_safe (lookup : UUID → Option Attachment)
    (participants attachments : List UUID) (m k : Nat) (p2 : List (List Nat))
    (M1 : Nat → Nat → Bool)
    (hM1 : ∀ a b, M1 a b = true → conflictAt lookup participants attachments a b = false) :
    ∀ a ∈ (phase2 (conflictAt lookup participants attachments)
        participants attachments m k p2 M1).2,
      ∀ attID ∈ a.attachmentIDs,
        hasConflictOfInterest lookup a.participantID attID = false := by
  have hstep : ∀ (state : (Nat → Nat → Bool) × List AssignmentRec) (i : Nat),
      ((∀ a b, state.1 a b = true →
          conflictAt lookup participants attachments a b = false) ∧
        ∀ a ∈ state.2, ∀ attID ∈ a.attachmentIDs,
          hasConflictOfInterest lookup a.participantID attID = false) →
      ((∀ a b, ((phase2Fill (conflictAt lookup participants attachments) i m
            (p2.getD i []) state.1 (countRow state.1 i k)).1) a b = true →
          conflictAt lookup participants attachments a b = false) ∧
        ∀ a ∈ state.2 ++ [⟨0, participants.getD i 0,
            ((List.range k).filter (fun j =>
              (phase2Fill (conflictAt lookup participants attachments) i m
                (p2.getD i []) state.1 (countRow state.1 i k)).1 i j)).map
              (fun j => attachments.getD j 0), false⟩],
          ∀ attID ∈ a.attachmentIDs,
            hasConflictOfInterest lookup a.participantID attID = false) := by
    intro state i hstate
    obtain ⟨hs1, hs2⟩ := hstate
    have hM' : ∀ a b, ((phase2Fill (conflictAt lookup participants attachments) i m
        (p2.getD i []) state.1 (countRow state.1 i k)).1) a b = true →
        conflictAt lookup participants attachments a b = false :=
      phase2Fill_noconf _ i m _ _ _ hs1
    refine ⟨hM', ?_⟩
    intro a ha attID hatt
    rcases List.mem_append.mp ha with h | h
    · exact hs2 a h attID hatt
    · simp only [List.mem_singleton] at h
      subst h
      simp only at hatt
      obtain ⟨j, hj, rfl⟩ := List.mem_map.mp hatt
      obtain ⟨_, hMij⟩ := List.mem_filter.mp hj
      exact hM' i j hMij
  unfold phase2
  have hinv := foldl_preserve
    (fun (state : (Nat → Nat → Bool) × List AssignmentRec) =>
      (∀ a b, state.1 a b = true →
          conflictAt lookup participants attachments a b = false) ∧
      ∀ a ∈ state.2, ∀ attID ∈ a.attachmentIDs,
        hasConflictOfInterest lookup a.participantID attID = false)
    (fun state i =>
      ((phase2Fill (conflictAt lookup participants attachments) i m
        (p2.getD i []) state.1 (countRow state.1 i k)).1,
       state.2 ++ [⟨0, participants.getD i 0,
        ((List.range k).filter (fun j =>
          (phase2Fill (conflictAt lookup participants attachments) i m
            (p2.getD i []) state.1 (countRow state.1 i k)).1 i j)).map
          (fun j => attachments.getD j 0), false⟩]))
    (fun state i h => hstep state i h)
    (List.range participants.length) (M1, []) ⟨hM1, by simp⟩
  exact hinv.2

/-- A successful run of the generator returns exactly the phase-2 output. -/
theorem generateAssignments_eq_ok (lookup : UUID → Option Attachment)
    (participants attachments : List UUID) (m minEvals : Nat)
    (p1 p2 : List (List Nat)) (assignments : List AssignmentRec)
    (h : generateAssignments lookup participants attachments m minEvals p1 p2 =
      .ok assignments) :
    assignments = (phase2 (conflictAt lookup participants attachments)
      participants attachments m attachments.length p2
      (phase1 (conflictAt lookup participants attachments)
        participants.length attachments.length minEvals p1 (fun _ _ => false))).2 := by
  simp only [generateAssignments] at h
  split at h
  · exact absurd h (by simp)
  · split at h
    · exact absurd h (by simp)
    · exact (Except.ok.inj h).symm

/-! ## C4: exact workload or failure -/

/-- C4 counterexample: with one participant who authored attachment
`100`, `k = 2`, `m = 2`, the generator returns success with an
assignment containing a single attachment id, not `m = 2`, and no
infeasibility error is raised. -/
theorem assignment_exact_m_cex :
    generateAssignments lookupShortfall [7] [100, 101] 2 1 [[0], [0]] [[0, 1]] =
      Except.ok [⟨0, 7, [101], false⟩] ∧
    ([101] : List UUID).length ≠ 2 := by decide

/-- C4 amended: the generator has no `InfeasibleAssignment` failure
path at all — whenever the two upfront parameter checks pass
(`m ≤ k` and `m ≥ ⌈2·log₂ k⌉`) it returns success, even if a
participant could not be brought up to `m` valid proposals (such a
participant silently receives an under-filled assignment). -/
theorem assignment_generator_no_failure (lookup : UUID → Option Attachment)
    (participants attachments : List UUID) (m minEvals : Nat)
    (p1 p2 : List (List Nat))
    (h1 : m ≤ attachments.length) (h2 : recommendedM attachments.length ≤ m) :
    ∃ assignments,
      generateAssignments lookup participants attachments m minEvals p1 p2 =
        .ok assignments := by
  simp only [generateAssignments]
  rw [if_neg (by omega), if_neg (by omega)]
  exact ⟨_, rfl⟩

/-- Witness for `assignment_generator_no_failure` on the two-participant
fixture. -/
theorem assignment_generator_no_failure_witness :
    2 ≤ ([100, 101] : List UUID).length ∧
    recommendedM ([100, 101] : List UUID).length ≤ 2 ∧
    ∃ assignments, generateAssignments lookupPair [5, 6] [100, 101] 2 1
      [[0, 1], [0, 1]] [[0, 1], [0, 1]] = .ok assignments :=
  ⟨by decide, by decide,
    assignment_generator_no_failure lookupPair [5, 6] [100, 101] 2 1
      [[0, 1], [0, 1]] [[0, 1], [0, 1]] (by decide) (by decide)⟩

/-! ## C5: no self-evaluation -/

/-- C5: in every assignment produced by a successful generator run, no
assigned attachment is owned by the assignment's participant (both
phases assign only after `hasConflictOfInterest` returns false). -/
theorem no_self_evaluation (lookup : UUID → Option Attachment)
    (participants attachments : List UUID) (m minEvals : Nat)
    (p1 p2 : List (List Nat)) (assignments : List AssignmentRec)
    (h : generateAssignments lookup participants attachments m minEvals p1 p2 =
      .ok assignments) :
    ∀ a ∈ assignments, ∀ attID ∈ a.attachmentIDs, ∀ att : Attachment,
      lookup attID = some att → att.participantID ≠ a.participantID := by
  have hassign := generateAssignments_eq_ok lookup participants attachments m minEvals
    p1 p2 assignments h
  intro a ha attID hatt att hlook
  have hsafe := phase2_safe lookup participants attachments m attachments.length p2
    (phase1 (conflictAt lookup participants attachments)
      participants.length attachments.length minEvals p1 (fun _ _ => false))
    (phase1_noconf (conflictAt lookup participants attachments)
      participants.length attachments.length minEvals p1 (fun _ _ => false)
      (by intro a b hab; cases hab))
    a (hassign ▸ ha) attID hatt
  unfold hasConflictOfInterest at hsafe
  rw [hlook] at hsafe
  simpa using hsafe

/-- Witness for `no_self_evaluation` on the two-participant fixture:
participant `5` receives attachment `101`, owned by participant `6`. -/
theorem no_self_evaluation_witness :
    generateAssignments lookupPair [5, 6] [100, 101] 2 1 [[0, 1], [0, 1]] [[0, 1], [0, 1]] =
      Except.ok [⟨0, 5, [101], false⟩, ⟨0, 6, [100], false⟩] ∧
    (⟨101, 10, 6, "y"⟩ : Attachment).participantID ≠
      (⟨0, 5, [101], false⟩ : AssignmentRec).participantID :=
  ⟨by decide,
    no_self_evaluation lookupPair [5, 6] [100, 101] 2 1 [[0, 1], [0, 1]] [[0, 1], [0, 1]]
      [⟨0, 5, [101], false⟩, ⟨0, 6, [100], false⟩] (by decide)
      ⟨0, 5, [101], false⟩ (by decide) 101 (by decide) ⟨101, 10, 6, "y"⟩ (by decide)⟩

/-! ## C9: reproducibility and the RNG -/

/-- C9 counterexample: identical event, participants, attachments, and
configuration, but two different RNG draw sequences (the code's RNG is
seeded from `time.Now()`, not from the configuration, which has no seed
field): the two runs return different assignments. -/
theorem seed_reproducibility_cex :
    generateAssignments lookupEight [7] [100, 101, 102, 103, 104, 105, 106, 107]
      6 0 [] permsAsc = Except.ok [⟨0, 7, [100, 101, 102, 103, 104, 105], false⟩] ∧
    generateAssignments lookupEight [7] [100, 101, 102, 103, 104, 105, 106, 107]
      6 0 [] permsDesc = Except.ok [⟨0, 7, [102, 103, 104, 105, 106, 107], false⟩] ∧
    ([100, 101, 102, 103, 104, 105] : List UUID) ≠
      [102, 103, 104, 105, 106, 107] := by decide

theorem phase1_ext (c : Nat → Nat → Bool) (n k minEvals : Nat)
    (p1 p1' : List (List Nat)) (M0 : Nat → Nat → Bool)
    (h : ∀ j < k, p1.getD j [] = p1'.getD j []) :
    phase1 c n k minEvals p1 M0 = phase1 c n k minEvals p1' M0 := by
  unfold phase1
  apply List.foldl_ext
  intro M j hj
  rw [h j (List.mem_range.mp hj)]

theorem phase2_ext (c : Nat → Nat → Bool) (participants attachments : List UUID)
    (m k : Nat) (p2 p2' : List (List Nat)) (M1 : Nat → Nat → Bool)
    (h : ∀ i < participants.length, p2.getD i [] = p2'.getD i []) :
    phase2 c participants attachments m k p2 M1 =
      phase2 c participants attachments m k p2' M1 := by
  unfold phase2
  apply List.foldl_ext
  intro state i hi
  rw [h i (List.mem_range.mp hi)]

/-- C9 amended: the generator's output is a deterministic function of
its inputs together with the drawn permutations: any two draw sequences
that agree on every permutation the run consults (one per attachment in
phase 1, one per participant in phase 2) produce identical assignments.
Reproducibility therefore holds only once the RNG draws are fixed; the
configuration contributes no seed. -/
theorem generator_reproducible_from_draws (lookup : UUID → Option Attachment)
    (participants attachments : List UUID) (m minEvals : Nat)
    (p1 p1' p2 p2' : List (List Nat))
    (hp1 : ∀ j < attachments.length, p1.getD j [] = p1'.getD j [])
    (hp2 : ∀ i < participants.length, p2.getD i [] = p2'.getD i []) :
    generateAssignments lookup participants attachments m minEvals p1 p2 =
      generateAssignments lookup participants attachments m minEvals p1' p2' := by
  simp only [generateAssignments]
  split
  · rfl
  · split
    · rfl
    · rw [phase1_ext _ _ _ _ _ _ _ hp1, phase2_ext _ _ _ _ _ _ _ _ hp2]

/-- Witness for `generator_reproducible_from_draws`: padding the draw
lists with extra, never-consulted permutations leaves the run unchanged. -/
theorem generator_reproducible_from_draws_witness :
    generateAssignments lookupEight [7] [100, 101, 102, 103, 104, 105, 106, 107]
      6 0 [] permsAsc =
    generateAssignments lookupEight [7] [100, 101, 102, 103, 104, 105, 106, 107]
      6 0 [[], [], [], [], [], [], [], []] (permsAsc ++ [[7, 6, 5, 4, 3, 2, 1, 0]]) :=
  generator_reproducible_from_draws lookupEight [7]
    [100, 101, 102, 103, 104, 105, 106, 107] 6 0 []
    [[], [], [], [], [], [], [], []] permsAsc (permsAsc ++ [[7, 6, 5, 4, 3, 2, 1, 0]])
    (by decide) (by decide)

/-! ## Helper lemmas about ballot intake -/

theorem buildVotes_ok (eventID asgID voterID : UUID) (assignedIDs : List UUID)
    (lookup : UUID → Option Attachment) :
    ∀ rankings : List RankingEntry,
      (∀ e ∈ rankings, assignedIDs.contains e.attachmentID = true ∧
        (lookup e.attachmentID).map (fun att => att.eventID) = some eventID) →
      buildVotes eventID asgID voterID assignedIDs lookup rankings =
        .ok (rankings.map (fun e => ⟨eventID, asgID, voterID, e.attachmentID, e.rank⟩)) := by
  intro rankings
  induction rankings with
  | nil => intro _; rfl
  | cons e rest ih =>
    intro h
    obtain ⟨hcont, hmap⟩ := h e (by simp)
    cases hcase : lookup e.attachmentID with
    | none => rw [hcase] at hmap; simp at hmap
    | some att =>
      rw [hcase] at hmap
      simp only [Option.map_some'] at hmap
      have hev : att.eventID = eventID := Option.some.inj hmap
      simp only [buildVotes, hcont, hcase, Bool.not_true]
      rw [ih (fun e' he' => h e' (by simp [he']))]
      simp [hev]

/-- Core acceptance lemma for `SubmitRankingVotes`: a request in voting
stage, from a registered voter, with the matching assignment id,
duplicate-free consecutive ranks, and only assigned attachments of the
right event, is accepted: the votes are appended to the store and the
assignment is marked completed exactly when the ballot covers the whole
assignment.  No property of the prior store or of the assignment's
`isCompleted` flag is required. -/
theorem submit_ok_of_valid (stage : Stage) (partEvents : List UUID)
    (eventID participantID reqID : UUID) (assignment : AssignmentRec)
    (lookup : UUID → Option Attachment) (rankings : List RankingEntry)
    (store : List Vote)
    (h1 : stage = Stage.voting)
    (h2 : partEvents.contains eventID = true)
    (h3 : reqID = assignment.id)
    (h4 : hasDuplicateRank [] (rankings.map RankingEntry.rank) = false)
    (h5 : (List.range' 1 rankings.length).all
      (fun i => (rankings.map RankingEntry.rank).contains i) = true)
    (h6 : ∀ e ∈ rankings, assignment.attachmentIDs.contains e.attachmentID = true ∧
      (lookup e.attachmentID).map (fun att => att.eventID) = some eventID) :
    submitRankingVotes stage partEvents eventID participantID reqID assignment lookup
      rankings store =
      .ok { newStore := store ++ rankings.map
              (fun e => ⟨eventID, reqID, participantID, e.attachmentID, e.rank⟩),
            newAssignment :=
              if rankings.length = assignment.attachmentIDs.length then
                { assignment with isCompleted := true } else assignment,
            votesCount := rankings.length } := by
  subst h1
  subst h3
  simp only [submitRankingVotes, h2, h4, h5]
  rw [buildVotes_ok _ _ _ _ _ rankings h6]
  simp [List.length_map]

/-! ## C6: ballot completeness -/

/-- C6 counterexample: the voter is assigned `[100, 101]` but submits a
ballot ranking only attachment `100`; the submission is accepted, one
vote is stored, and the assignment is left incomplete — it is not
rejected. -/
theorem ballot_subset_accepted_cex :
    submitRankingVotes .voting [10] 10 7 55 asgBallot lookupBallot rankingsSubset [] =
      Except.ok ⟨[⟨10, 55, 7, 100, 1⟩], asgBallot, 1⟩ ∧
    rankingsSubset.map RankingEntry.attachmentID ≠ asgBallot.attachmentIDs := by decide

/-- C6 amended: a ballot is accepted when every ranked attachment is
assigned (no extras) and exists in the event, and the ranks are
duplicate-free and consecutive from 1 — the ballot may cover any subset
of the assignment.  Its votes are all stored, and the assignment is
marked completed only when the vote count equals the assignment size. -/
theorem ballot_acceptance (stage : Stage) (partEvents : List UUID)
    (eventID participantID reqID : UUID) (assignment : AssignmentRec)
    (lookup : UUID → Option Attachment) (rankings : List RankingEntry)
    (store : List Vote)
    (h1 : stage = Stage.voting)
    (h2 : partEvents.contains eventID = true)
    (h3 : reqID = assignment.id)
    (h4 : hasDuplicateRank [] (rankings.map RankingEntry.rank) = false)
    (h5 : (List.range' 1 rankings.length).all
      (fun i => (rankings.map RankingEntry.rank).contains i) = true)
    (h6 : ∀ e ∈ rankings, assignment.attachmentIDs.contains e.attachmentID = true ∧
      (lookup e.attachmentID).map (fun att => att.eventID) = some eventID) :
    ∃ res, submitRankingVotes stage partEvents eventID participantID reqID assignment
        lookup rankings store = .ok res ∧
      res.newStore = store ++ rankings.map
        (fun e => ⟨eventID, reqID, participantID, e.attachmentID, e.rank⟩) ∧
      res.votesCount = rankings.length ∧
      (res.newAssignment.isCompleted = true ↔
        (rankings.length = assignment.attachmentIDs.length ∨
          assignment.isCompleted = true)) := by
  refine ⟨_, submit_ok_of_valid stage partEvents eventID participantID reqID assignment
    lookup rankings store h1 h2 h3 h4 h5 h6, rfl, rfl, ?_⟩
  by_cases hfull : rankings.length = assignment.attachmentIDs.length
  · simp [hfull]
  · simp [hfull]

/-- Witness for `ballot_acceptance` on the strict-subset fixture. -/
theorem ballot_acceptance_witness :
    hasDuplicateRank [] (rankingsSubset.map RankingEntry.rank) = false ∧
    ∃ res, submitRankingVotes .voting [10] 10 7 55 asgBallot lookupBallot
        rankingsSubset [] = .ok res ∧
      res.newStore = [] ++ rankingsSubset.map
        (fun e => ⟨10, 55, 7, e.attachmentID, e.rank⟩) ∧
      res.votesCount = rankingsSubset.length ∧
      (res.newAssignment.isCompleted = true ↔
        (rankingsSubset.length = asgBallot.attachmentIDs.length ∨
          asgBallot.isCompleted = true)) :=
  ⟨by decide,
    ballot_acceptance .voting [10] 10 7 55 asgBallot lookupBallot rankingsSubset []
      rfl (by decide) (by decide) (by decide) (by decide) (by decide)⟩

/-! ## C7: resubmission -/

/-- C7 counterexample: the voter submits a complete valid ballot, which
is stored and completes the assignment; the identical resubmission is
accepted again and appends a second copy of every vote — there is no
`AlreadyVoted` rejection and the stored ballot does not stay unchanged. -/
theorem resubmission_accepted_cex :
    submitRankingVotes .voting [10] 10 7 55 asgBallot lookupBallot rankingsFull [] =
      Except.ok ⟨[⟨10, 55, 7, 100, 1⟩, ⟨10, 55, 7, 101, 2⟩],
        ⟨55, 7, [100, 101], true⟩, 2⟩ ∧
    submitRankingVotes .voting [10] 10 7 55 ⟨55, 7, [100, 101], true⟩ lookupBallot
      rankingsFull [⟨10, 55, 7, 100, 1⟩, ⟨10, 55, 7, 101, 2⟩] =
      Except.ok ⟨[⟨10, 55, 7, 100, 1⟩, ⟨10, 55, 7, 101, 2⟩,
        ⟨10, 55, 7, 100, 1⟩, ⟨10, 55, 7, 101, 2⟩], ⟨55, 7, [100, 101], true⟩, 2⟩ ∧
    ([⟨10, 55, 7, 100, 1⟩, ⟨10, 55, 7, 101, 2⟩, ⟨10, 55, 7, 100, 1⟩,
      ⟨10, 55, 7, 101, 2⟩] : List Vote).length ≠
      ([⟨10, 55, 7, 100, 1⟩, ⟨10, 55, 7, 101, 2⟩] : List Vote).length := by decide

/-- C7 amended: `SubmitRankingVotes` performs no already-voted check: a
valid ballot is accepted whatever the prior vote store contains and
whatever the assignment's completion flag says, and each acceptance
appends exactly `len(rankings)` new vote records to the store. -/
theorem resubmission_appends (stage : Stage) (partEvents : List UUID)
    (eventID participantID reqID : UUID) (assignment : AssignmentRec)
    (lookup : UUID → Option Attachment) (rankings : List RankingEntry)
    (store : List Vote)
    (h1 : stage = Stage.voting)
    (h2 : partEvents.contains eventID = true)
    (h3 : reqID = assignment.id)
    (h4 : hasDuplicateRank [] (rankings.map RankingEntry.rank) = false)
    (h5 : (List.range' 1 rankings.length).all
      (fun i => (rankings.map RankingEntry.rank).contains i) = true)
    (h6 : ∀ e ∈ rankings, assignment.attachmentIDs.contains e.attachmentID = true ∧
      (lookup e.attachmentID).map (fun att => att.eventID) = some eventID) :
    (submitRankingVotes stage partEvents eventID participantID reqID assignment lookup
      rankings store).toOption.map (fun res => res.newStore.length) =
      some (store.length + rankings.length) := by
  rw [submit_ok_of_valid stage partEvents eventID participantID reqID assignment lookup
    rankings store h1 h2 h3 h4 h5 h6]
  simp [Except.toOption]

/-- Witness for `resubmission_appends`: the second submission on an
already-completed assignment, with the first ballot already stored. -/
theorem resubmission_appends_witness :
    (submitRankingVotes .voting [10] 10 7 55 ⟨55, 7, [100, 101], true⟩ lookupBallot
      rankingsFull [⟨10, 55, 7, 100, 1⟩, ⟨10, 55, 7, 101, 2⟩]).toOption.map
      (fun res => res.newStore.length) = some 4 :=
  resubmission_appends .voting [10] 10 7 55 ⟨55, 7, [100, 101], true⟩ lookupBallot
    rankingsFull [⟨10, 55, 7, 100, 1⟩, ⟨10, 55, 7, 101, 2⟩]
    rfl (by decide) (by decide) (by decide) (by decide) (by decide)

/-! ## C8: the convergence recommendation -/

/-- C8 counterexample: `m = 5`, `k = 16`, `n = 4`, thresholds `0.6/0.3`,
`minEvaluationsPerFile = 1`: every hard check passes and coverage holds
(`4·5 ≥ 16·1`), yet validation returns an error — the convergence
recommendation `m ≥ ⌈2·log₂ 16⌉ = 8` is enforced as a rejection, not
reported as a warning. -/
theorem convergence_warning_cex :
    validateVotingConfiguration cfgBelowRec 16 4 =
      Except.error ValidationError.belowRecommended ∧
    validateVotingConfiguration cfgBelowRec 16 4 ≠ Except.ok () := by decide

/-- C8 amended: whenever the hard checks pass but
`m < ⌈2·log₂ k⌉`, `ValidateVotingConfiguration` rejects the
configuration with the below-recommendation error (a hard failure, not
a warning). -/
theorem convergence_hard_check (config : VotingConfiguration) (k n : Nat)
    (h1 : 0 < config.attachmentsPerEvaluator)
    (h2 : config.attachmentsPerEvaluator ≤ (k : Int))
    (h3 : config.qualityBadThreshold < config.qualityGoodThreshold)
    (h4 : config.qualityGoodThreshold ≤ 1)
    (h5 : 0 ≤ config.qualityBadThreshold)
    (h6 : config.attachmentsPerEvaluator < (recommendedM k : Int)) :
    validateVotingConfiguration config k n =
      Except.error ValidationError.belowRecommended := by
  simp only [validateVotingConfiguration]
  rw [if_neg (by omega), if_neg (by omega), if_neg (not_le.mpr h3),
    if_neg (by push_neg; exact ⟨h4, h5⟩), if_pos h6]

/-- Witness for `convergence_hard_check` on the `m = 5`, `k = 16`
fixture. -/
theorem convergence_hard_check_witness :
    0 < cfgBelowRec.attachmentsPerEvaluator ∧
    cfgBelowRec.attachmentsPerEvaluator < (recommendedM 16 : Int) ∧
    validateVotingConfiguration cfgBelowRec 16 4 =
      Except.error ValidationError.belowRecommended :=
  ⟨by decide, by decide,
    convergence_hard_check cfgBelowRec 16 4 (by decide) (by decide) (by decide)
      (by decide) (by decide) (by decide)⟩

/-! ## C10: zero values in the create-configuration request -/

/-- C10 counterexample: a request with `adjustment_magnitude = 0` (and
otherwise valid fields, which do produce a persisted configuration when
the magnitude is `3`) is rejected as an invalid payload by the binding
validation (`min=1`), instead of being silently defaulted to `3`. -/
theorem zero_magnitude_cex :
    createVotingConfiguration .registration false 4 16 reqZeroMagnitude =
      Except.error CreateConfigError.invalidPayload ∧
    createVotingConfiguration .registration false 4 16 reqValid =
      Except.ok ⟨8, 6 / 10, 3 / 10, 3, 1⟩ := by decide

/-- C10 amended: for any configuration the handler actually persists, a
zero `qualityGoodThreshold`/`qualityBadThreshold` in the request was
silently replaced by the defaults `0.6`/`0.3` (so no persisted
configuration carries a zero threshold), while
`adjustmentMagnitude` and `minEvaluationsPerFile` are passed through
unchanged and are at least `1` — their zero values are rejected by the
payload binding (`min=1`), so their defaulting branches are
unreachable. -/
theorem applyConfigDefaults_fields (c : VotingConfiguration) :
    (applyConfigDefaults c).attachmentsPerEvaluator = c.attachmentsPerEvaluator ∧
    (applyConfigDefaults c).qualityGoodThreshold =
      (if c.qualityGoodThreshold = 0 then 6 / 10 else c.qualityGoodThreshold) ∧
    (applyConfigDefaults c).qualityBadThreshold =
      (if c.qualityBadThreshold = 0 then 3 / 10 else c.qualityBadThreshold) ∧
    (applyConfigDefaults c).adjustmentMagnitude =
      (if c.adjustmentMagnitude = 0 then 3 else c.adjustmentMagnitude) ∧
    (applyConfigDefaults c).minEvaluationsPerFile =
      (if c.minEvaluationsPerFile = 0 then 3 else c.minEvaluationsPerFile) := by
  by_cases h1 : c.qualityGoodThreshold = 0 <;>
    by_cases h2 : c.qualityBadThreshold = 0 <;>
      by_cases h3 : c.adjustmentMagnitude = 0 <;>
        by_cases h4 : c.minEvaluationsPerFile = 0 <;>
          simp [applyConfigDefaults, h1, h2, h3, h4]

theorem config_zero_threshold_defaults (stage : Stage) (ce : Bool) (n k : Nat)
    (req : CreateConfigRequest) (cfg : VotingConfiguration)
    (h : createVotingConfiguration stage ce n k req = .ok cfg) :
    (req.qualityGoodThreshold = 0 → cfg.qualityGoodThreshold = 6 / 10) ∧
    (req.qualityBadThreshold = 0 → cfg.qualityBadThreshold = 3 / 10) ∧
    cfg.qualityGoodThreshold ≠ 0 ∧
    cfg.qualityBadThreshold ≠ 0 ∧
    cfg.adjustmentMagnitude = req.adjustmentMagnitude ∧
    1 ≤ cfg.adjustmentMagnitude ∧
    cfg.minEvaluationsPerFile = req.minEvaluationsPerFile ∧
    1 ≤ cfg.minEvaluationsPerFile := by
  simp only [createVotingConfiguration] at h
  split at h
  case isTrue => exact absurd h (by simp)
  case isFalse hbind =>
  split at h
  case isTrue => exact absurd h (by simp)
  case isFalse _ =>
  split at h
  case isTrue => exact absurd h (by simp)
  case isFalse _ =>
  split at h
  case isTrue => exact absurd h (by simp)
  case isFalse _ =>
  split at h
  case isTrue => exact absurd h (by simp)
  case isFalse _ =>
  split at h
  case isTrue => exact absurd h (by simp)
  case isFalse _ =>
  split at h
  case h_1 => exact absurd h (by simp)
  case h_2 =>
  split at h
  case isTrue => exact absurd h (by simp)
  case isFalse _ =>
  have hcfg := Except.ok.inj h
  subst hcfg
  have hbind' : bindCreateConfigRequest req = true := by
    cases hq : bindCreateConfigRequest req
    · rw [hq] at hbind; simp at hbind
    · rfl
  rw [bindCreateConfigRequest, decide_eq_true_eq] at hbind'
  obtain ⟨hm0, hm1, hm50, hg0, hg1, hb0, hb1, hmag1, hmag10, hmin1, hmin20⟩ := hbind'
  have hmag : req.adjustmentMagnitude ≠ 0 := by omega
  have hmin : req.minEvaluationsPerFile ≠ 0 := by omega
  obtain ⟨hf1, hf2, hf3, hf4, hf5⟩ := applyConfigDefaults_fields
    ⟨req.attachmentsPerEvaluator, req.qualityGoodThreshold, req.qualityBadThreshold,
      req.adjustmentMagnitude, req.minEvaluationsPerFile⟩
  simp only at hf1 hf2 hf3 hf4 hf5
  refine ⟨?_, ?_, ?_, ?_, ?_, ?_, ?_, ?_⟩
  · intro hgz; rw [hf2, if_pos hgz]
  · intro hbz; rw [hf3, if_pos hbz]
  · rw [hf2]
    by_cases hgz : req.qualityGoodThreshold = 0
    · rw [if_pos hgz]; norm_num
    · rw [if_neg hgz]; exact hgz
  · rw [hf3]
    by_cases hbz : req.qualityBadThreshold = 0
    · rw [if_pos hbz]; norm_num
    · rw [if_neg hbz]; exact hbz
  · rw [hf4, if_neg hmag]
  · rw [hf4, if_neg hmag]; exact hmag1
  · rw [hf5, if_neg hmin]
  · rw [hf5, if_neg hmin]; exact hmin1

/-- Witness for `config_zero_threshold_defaults`: a successful creation
from a request with a zero good-quality threshold. -/
theorem config_zero_threshold_defaults_witness :
    createVotingConfiguration .registration false 4 16 reqZeroGood =
      Except.ok ⟨8, 6 / 10, 3 / 10, 3, 1⟩ ∧
    ((reqZeroGood.qualityGoodThreshold = 0 →
        (⟨8, 6 / 10, 3 / 10, 3, 1⟩ : VotingConfiguration).qualityGoodThreshold = 6 / 10) ∧
      (reqZeroGood.qualityBadThreshold = 0 →
        (⟨8, 6 / 10, 3 / 10, 3, 1⟩ : VotingConfiguration).qualityBadThreshold = 3 / 10) ∧
      (⟨8, 6 / 10, 3 / 10, 3, 1⟩ : VotingConfiguration).qualityGoodThreshold ≠ 0 ∧
      (⟨8, 6 / 10, 3 / 10, 3, 1⟩ : VotingConfiguration).qualityBadThreshold ≠ 0 ∧
      (⟨8, 6 / 10, 3 / 10, 3, 1⟩ : VotingConfiguration).adjustmentMagnitude =
        reqZeroGood.adjustmentMagnitude ∧
      1 ≤ (⟨8, 6 / 10, 3 / 10, 3, 1⟩ : VotingConfiguration).adjustmentMagnitude ∧
      (⟨8, 6 / 10, 3 / 10, 3, 1⟩ : VotingConfiguration).minEvaluationsPerFile =
        reqZeroGood.minEvaluationsPerFile ∧
      1 ≤ (⟨8, 6 / 10, 3 / 10, 3, 1⟩ : VotingConfiguration).minEvaluationsPerFile) :=
  ⟨by decide,
    config_zero_threshold_defaults .registration false 4 16 reqZeroGood
      ⟨8, 6 / 10, 3 / 10, 3, 1⟩ (by decide)⟩

end Telescopio
